import Mathlib

/-!
Verification development for the gotify-to-telegram relay.

Go strings are modelled as `List Char` (Go iterates and splits these strings
at character granularity on ASCII data; UTF-8 byte order and code-point order
agree, so `List Char` is a faithful carrier). Each definition mirrors one Go
function of the sources; the source file and function are named in its doc
comment.  Maps are modelled as association lists (first binding wins on
lookup), network and clock effects as explicit parameters, and channel sends
as returned lists of emitted values.
-/

/-- The backslash character (escape prefix in MarkdownV2). -/
def bs : Char := '\\'

/-- `strings.ReplaceAll s char ("\" + char)` for a one-character pattern
`char`: every occurrence of `c` is replaced by backslash-then-`c`
(`internal/telegram/format.go` line 62, `part_003` line 36/41). -/
def replaceAll (l : List Char) (c : Char) : List Char :=
  l.flatMap (fun x => if x = c then [bs, c] else [x])

/-- `strings.Contains escaped "\n"` where the pattern is the two-character
sequence backslash-`n` (`part_003` line 32). -/
def containsBSn : List Char → Bool
  | '\\' :: 'n' :: _ => true
  | _ :: rest => containsBSn rest
  | [] => false

/-- `strings.Split escaped "\n"`: split on the two-character separator
backslash-`n`, leftmost-first, non-overlapping (`part_003` line 33). -/
def splitOnBSn : List Char → List (List Char)
  | '\\' :: 'n' :: rest' => [] :: splitOnBSn rest'
  | x :: rest =>
    match splitOnBSn rest with
    | [] => [[x]]
    | p :: ps => (x :: p) :: ps
  | [] => [[]]

/-- `strings.Join parts "\n"` (`part_003` line 39). -/
def joinBSn : List (List Char) → List Char
  | [] => []
  | [p] => p
  | p :: ps => p ++ bs :: 'n' :: joinBSn ps

/-- The 18 reserved characters of the MarkdownV2 dialect
(`part_003` line 16 `charactersToEscape`; the identical local list
`specialChars` appears in `internal/telegram/format.go` lines 55-58). -/
def charactersToEscape : List Char :=
  ['_', '*', '[', ']', '(', ')', '~', Char.ofNat 96, '>',
   '#', '+', '-', '=', '|', '{', '}', '.', '!']

/-- One iteration of the escape loop of `part_003` `escapeMarkdownV2`
(lines 30-43): if the text contains a literal backslash-`n`, split on it,
escape each part and re-join (so the backslash of `\n` is not escaped);
otherwise plain `ReplaceAll`.  The inner `char != "\\"` guard of line 35 is
kept verbatim. -/
def escapeStepP3 (escaped : List Char) (char : Char) : List Char :=
  if containsBSn escaped then
    joinBSn ((splitOnBSn escaped).map
      (fun part => if char ≠ bs then replaceAll part char else part))
  else
    replaceAll escaped char

/-- `escapeMarkdownV2` of `part_003` lines 28-45 (snapshot with the
newline-preserving branch): fold the per-character escape step over the 18
reserved characters. -/
def escapeMarkdownV2P3 (text : List Char) : List Char :=
  charactersToEscape.foldl escapeStepP3 text

/-- `escapeMarkdownV2` of `internal/telegram/format.go` lines 53-65:
sequential `strings.ReplaceAll` for each reserved character. -/
def escapeMarkdownV2 (s : List Char) : List Char :=
  charactersToEscape.foldl replaceAll s

/-- Claim-side characterization (spec §4.5 / §8): prefix every occurrence of
a reserved character with a backslash, leave the rest unchanged.  This is the
statement of C1, to be compared with the source functions. -/
def specEscapeChar (c : Char) : List Char :=
  if c ∈ charactersToEscape then [bs, c] else [c]

/-- The spec's escape transform applied character by character. -/
def specEscape (l : List Char) : List Char :=
  l.flatMap specEscapeChar

/-- Scan to the first occurrence of `stop`: the characters strictly before it
and the characters strictly after it.  This is the greedy negated
character-class step shared by the Go regexes `[^\]]*\]` / `[^)]+\)`
(`part_003` lines 19-25): a greedy run over a class excluding `stop`,
followed by the literal `stop`, always ends at the first `stop`. -/
def takeUntil (stop : Char) (l : List Char) : Option (List Char × List Char) :=
  match l.dropWhile (fun c => c ≠ stop) with
  | [] => none
  | _ :: after => some (l.takeWhile (fun c => c ≠ stop), after)

/-- Try to match the tail of `inlineURLRegex` = `\[([^\]]+)\]\(([^)]+)\)`
(`part_003` line 25) right after an opening bracket: returns
(link text, url, remaining input). -/
def tryInlineAt (l : List Char) : Option (List Char × List Char × List Char) :=
  match takeUntil ']' l with
  | none => none
  | some (text, r1) =>
    if text = [] then none
    else
      match r1 with
      | '(' :: r2 =>
        match takeUntil ')' r2 with
        | none => none
        | some (url, r3) => if url = [] then none else some (text, url, r3)
      | _ => none

/-- `inlineURLRegex.ReplaceAllStringFunc` of `part_003` lines 73-77: replace
each inline-URL markdown match (leftmost-first, continuing after each match)
by the placeholder `INLINEURL<n>` where `n` is the number of placeholders
collected so far, and record placeholder ↦ original.  The fuel argument is
the length of the input; every loop step of the Go scanner consumes at least
one character, so the fuel is never exhausted. -/
def inlineGo : Nat → List Char → List (List Char × List Char) →
    List Char × List (List Char × List Char)
  | _, [], m => ([], m)
  | 0, l, m => (l, m)
  | fuel + 1, '[' :: rest, m =>
    match tryInlineAt rest with
    | some (text, url, rest') =>
      let original := '[' :: (text ++ ']' :: '(' :: (url ++ [')']))
      let placeholder := "INLINEURL".toList ++ (Nat.repr m.length).toList
      let (out, m') := inlineGo fuel rest' ((placeholder, original) :: m)
      (placeholder ++ out, m')
    | none =>
      let (out, m') := inlineGo fuel rest m
      ('[' :: out, m')
  | fuel + 1, c :: rest, m =>
    let (out, m') := inlineGo fuel rest m
    (c :: out, m')

/-- Try to match the tail of `imageMarkdownRegex` = `!\[([^\]]*)\]\(([^)]+)\)`
(`part_003` line 22) right after the leading `![`; the alt text may be empty.
Returns (url, remaining input); per `extractAndFormatImageURL`
(`part_003` lines 53-59) the whole match is replaced by the bare url. -/
def tryImageAt (l : List Char) : Option (List Char × List Char) :=
  match takeUntil ']' l with
  | none => none
  | some (_, r1) =>
    match r1 with
    | '(' :: r2 =>
      match takeUntil ')' r2 with
      | none => none
      | some (url, r3) => if url = [] then none else some (url, r3)
    | _ => none

/-- `imageMarkdownRegex.ReplaceAllStringFunc` of `part_003` lines 80-82:
each image-markdown match is replaced by its extracted URL. -/
def imageGo : Nat → List Char → List Char
  | _, [] => []
  | 0, l => l
  | fuel + 1, '!' :: '[' :: rest =>
    match tryImageAt rest with
    | some (url, rest') => url ++ imageGo fuel rest'
    | none => '!' :: imageGo fuel ('[' :: rest)
  | fuel + 1, c :: rest => c :: imageGo fuel rest

/-- The RE2 `\s` class (ASCII): space, tab, newline, carriage return,
form feed (0x0C), used by `urlRegex` (`part_003` line 19). -/
def isSpaceRE2 (c : Char) : Bool :=
  c = ' ' ∨ c = '\t' ∨ c = '\n' ∨ c = '\r' ∨ c = Char.ofNat 12

/-- Try to match `urlRegex` = `https?://[^\s]+` (`part_003` line 19) at the
head of the input: the scheme (with the optional greedy `s`), `://`, then a
non-empty greedy run of non-whitespace.  Returns (match, remaining input). -/
def tryURLAt (l : List Char) : Option (List Char × List Char) :=
  match l with
  | 'h' :: 't' :: 't' :: 'p' :: rest =>
    match rest with
    | 's' :: ':' :: '/' :: '/' :: r2 =>
      let run := r2.takeWhile (fun c => ¬ isSpaceRE2 c)
      if run = [] then none
      else some ("https://".toList ++ run, r2.dropWhile (fun c => ¬ isSpaceRE2 c))
    | ':' :: '/' :: '/' :: r2 =>
      let run := r2.takeWhile (fun c => ¬ isSpaceRE2 c)
      if run = [] then none
      else some ("http://".toList ++ run, r2.dropWhile (fun c => ¬ isSpaceRE2 c))
    | _ => none
  | _ => none

/-- `strings.Contains hay needle` (`part_003` line 88): `needle` occurs as a
contiguous segment of `hay`. -/
def containsSub (needle : List Char) : List Char → Bool
  | [] => needle.isEmpty
  | c :: rest => needle.isPrefixOf (c :: rest) || containsSub needle rest

/-- `urlRegex.ReplaceAllStringFunc` of `part_003` lines 85-93: each plain URL
that occurs inside some preserved inline URL is kept verbatim, every other
URL is escaped by `formatPlainURL` (= `escapeMarkdownV2`, `part_003`
lines 48-50). -/
def urlGo (inlineURLs : List (List Char × List Char)) :
    Nat → List Char → List Char
  | _, [] => []
  | 0, l => l
  | fuel + 1, c :: rest =>
    match tryURLAt (c :: rest) with
    | some (url, rest') =>
      (if inlineURLs.any (fun pr => containsSub url pr.2) then url
       else escapeMarkdownV2P3 url) ++ urlGo inlineURLs fuel rest'
    | none => c :: urlGo inlineURLs fuel rest

/-- `urlRegex.MatchString word` (`part_003` line 101): some position of the
word starts a URL match. -/
def hasURL : List Char → Bool
  | [] => false
  | c :: rest => (tryURLAt (c :: rest)).isSome || hasURL rest

/-- `strings.Split currentText " "` (`part_003` line 96). -/
def splitOnSpace : List Char → List (List Char)
  | [] => [[]]
  | ' ' :: rest => [] :: splitOnSpace rest
  | c :: rest =>
    match splitOnSpace rest with
    | [] => [[c]]
    | p :: ps => (c :: p) :: ps

/-- `strings.Join words " "` (`part_003` line 106). -/
def joinSpace : List (List Char) → List Char
  | [] => []
  | [p] => p
  | p :: ps => p ++ ' ' :: joinSpace ps

/-- `strings.ReplaceAll text pat rep` for a non-empty multi-character pattern
(placeholder restoration, `part_003` line 110): leftmost-first,
non-overlapping, the replacement is not rescanned.  Fuel is the input length;
each step consumes at least one character. -/
def replaceSubGo (pat rep : List Char) : Nat → List Char → List Char
  | _, [] => []
  | 0, l => l
  | fuel + 1, c :: rest =>
    if pat ≠ [] ∧ pat.isPrefixOf (c :: rest) then
      rep ++ replaceSubGo pat rep fuel ((c :: rest).drop pat.length)
    else c :: replaceSubGo pat rep fuel rest

/-- `strings.ReplaceAll` wrapper supplying the fuel. -/
def replaceSub (pat rep l : List Char) : List Char :=
  replaceSubGo pat rep l.length l

/-- `formatMessageAsMarkdownV2` of `part_003` lines 67-114: preserve inline
URLs behind placeholders, reduce image markdown to its URL, escape plain
URLs, escape the remaining text word by word (skipping placeholders and
words containing a URL), then restore the inline URLs.  Go iterates the
placeholder map in unspecified order during restoration; the model restores
in a fixed (most-recent-first) order, which is deterministic and agrees with
Go whenever the placeholders do not interfere, i.e. always in practice. -/
def formatMessageAsMarkdownV2 (input : List Char) : List Char :=
  let r := inlineGo input.length input []
  let inlineURLs := r.2
  let t2 := imageGo r.1.length r.1
  let t3 := urlGo inlineURLs t2.length t2
  let words := splitOnSpace t3
  let words2 := words.map (fun word =>
    if (inlineURLs.lookup word).isSome then word
    else if hasURL word then word
    else escapeMarkdownV2P3 word)
  let t4 := joinSpace words2
  inlineURLs.foldl (fun acc pr => replaceSub pr.1 pr.2 acc) t4

/-- The dynamic `interface{}` values of the extras map
(`map[string]interface{}`, `api.go` line 28): either a scalar — carried here
as its `fmt.Sprint` rendering — or a nested string-keyed map, modelled as an
association list (spec §9 suggests exactly this tagged variant). -/
inductive ExtraValue where
  | scalar (s : List Char)
  | nested (m : List (List Char × ExtraValue))

mutual

/-- Structural size of one extras value (fuel bound for the renderer). -/
def extraValSize : ExtraValue → Nat
  | .scalar _ => 1
  | .nested m => 1 + extraListSize m

/-- Structural size of an extras map. -/
def extraListSize : List (List Char × ExtraValue) → Nat
  | [] => 0
  | p :: rest => 1 + extraValSize p.2 + extraListSize rest

end

/-- Go string order (`sort.Strings` comparison, byte-lexicographic; UTF-8
byte order agrees with code-point order). -/
def lexLe : List Char → List Char → Bool
  | [], _ => true
  | _ :: _, [] => false
  | x :: xs, y :: ys => if x = y then lexLe xs ys else decide (x < y)

/-- Insertion step of the key sort used to model `sort.Strings keys`
(`part_003` line 128). -/
def insertPair (p : List Char × ExtraValue) :
    List (List Char × ExtraValue) → List (List Char × ExtraValue)
  | [] => [p]
  | q :: rest => if lexLe p.1 q.1 then p :: q :: rest else q :: insertPair p rest

/-- `sort.Strings keys` followed by indexing the map (`part_003`
lines 124-131): with unique keys, iterating the map entries in ascending key
order.  Modelled as an insertion sort of the entry list by key. -/
def sortPairs : List (List Char × ExtraValue) → List (List Char × ExtraValue)
  | [] => []
  | p :: rest => insertPair p (sortPairs rest)

/-- Body of the loop of `formatExtras` (`part_003` lines 130-143) over the
already-sorted entries: a bullet per entry; nested maps recurse (sorted
again) with the indentation prefix grown by two spaces and the recursive
call's trailing blank line; scalar values become inline code spans.  Fuel
bounds the recursion; the top-level call passes `sizeOf` of the entry list,
which bounds the recursion depth since `sortPairs` permutes entries and
every nested list is structurally smaller. -/
def renderSorted : Nat → List (List Char × ExtraValue) → List Char → List Char
  | 0, _, _ => []
  | _ + 1, [], _ => []
  | fuel + 1, (key, ExtraValue.nested m) :: rest, pfx =>
    ('\n' :: pfx ++ "• ".toList ++ escapeMarkdownV2P3 key ++ [':']) ++
      (renderSorted fuel (sortPairs m) (pfx ++ "  ".toList) ++ ['\n', '\n']) ++
      renderSorted fuel rest pfx
  | fuel + 1, (key, ExtraValue.scalar v) :: rest, pfx =>
    ('\n' :: pfx ++ "• ".toList ++ escapeMarkdownV2P3 key ++ ": ".toList ++
      Char.ofNat 96 :: escapeMarkdownV2P3 v ++ [Char.ofNat 96]) ++
      renderSorted fuel rest pfx

/-- `formatExtras` of `part_003` lines 122-146: sort the keys, render every
entry, and append a trailing blank line. -/
def formatExtras (extras : List (List Char × ExtraValue)) (pfx : List Char) :
    List Char :=
  renderSorted (extraListSize extras) (sortPairs extras) pfx ++ ['\n', '\n']

/-- `config.MessageFormatOptions` (`internal/config/config.go` lines 35-48).
`PriorityThreshold` is a Go `int`. -/
structure MessageFormatOptions where
  includeAppName : Bool
  includeTimestamp : Bool
  includeExtras : Bool
  parseMode : List Char
  includePriority : Bool
  priorityThreshold : Int
deriving DecidableEq

/-- `api.Message` (`internal/api/api.go` lines 20-30).  `Id`, `AppID` and
`Priority` are `uint32` (no arithmetic is performed on them, so plain `Nat`
is faithful); the creation timestamp is opaque. -/
structure Message where
  id : Nat
  appID : Nat
  appName : List Char
  appDescription : List Char
  message : List Char
  title : List Char
  priority : Nat
  extras : List (List Char × ExtraValue)
  date : Nat

/-- `formatTitle` (`part_003` lines 117-119): `fmt.Sprintf("[%s] %s", ...)`. -/
def formatTitle (msg : Message) : List Char :=
  '[' :: (msg.appName ++ ']' :: ' ' :: msg.title)

/-- `getPriorityIndicator` (`part_003` lines 149-160): top-down switch over
inclusive lower bounds. -/
def getPriorityIndicator (priority : Int) : List Char :=
  if priority ≥ 8 then "🔴 Critical Priority".toList
  else if priority ≥ 6 then "🟠 High Priority".toList
  else if priority ≥ 4 then "🟡 Medium Priority".toList
  else "🟢 Low Priority".toList

/-- Title block of `FormatMessage` (`part_003` lines 170-177). -/
def titleSegment (msg : Message) (formatOpts : MessageFormatOptions) :
    List Char :=
  if msg.title = [] then []
  else
    '*' :: escapeMarkdownV2P3
        (if formatOpts.includeAppName then formatTitle msg else msg.title) ++
      '*' :: ['\n', '\n']

/-- Priority block of `FormatMessage` (`part_003` lines 187-190). -/
def prioritySegment (msg : Message) (formatOpts : MessageFormatOptions) :
    List Char :=
  if (msg.priority : Int) > formatOpts.priorityThreshold ∧
      formatOpts.includePriority then
    escapeMarkdownV2P3 (getPriorityIndicator (msg.priority : Int)) ++ ['\n', '\n']
  else []

/-- Extras block of `FormatMessage` (`part_003` lines 192-196). -/
def extrasSegment (msg : Message) (formatOpts : MessageFormatOptions) :
    List Char :=
  if 0 < msg.extras.length ∧ formatOpts.includeExtras then
    "*Additional Info:*".toList ++ formatExtras msg.extras []
  else []

/-- Timestamp block of `FormatMessage` (`part_003` lines 199-202); the
RFC3339 rendering of `time.Now()` enters as the explicit `nowStr`. -/
def timestampSegment (nowStr : List Char) (formatOpts : MessageFormatOptions) :
    List Char :=
  if formatOpts.includeTimestamp then
    ("timestamp: ".toList ++ escapeMarkdownV2P3 nowStr) ++ ['\n']
  else []

/-- `FormatMessage` of `part_003` lines 163-205.  The sequential
`strings.Builder` writes are modelled as concatenation; the `switch` on
`ParseMode` supports only `"MarkdownV2"` and rejects everything else with
`fmt.Errorf("parse mode %s is not supported", ...)`. -/
def FormatMessage (nowStr : List Char) (msg : Message)
    (formatOpts : MessageFormatOptions) : Except (List Char) (List Char) :=
  if formatOpts.parseMode = "MarkdownV2".toList then
    Except.ok (titleSegment msg formatOpts ++
      (formatMessageAsMarkdownV2 msg.message ++ ['\n', '\n']) ++
      prioritySegment msg formatOpts ++
      extrasSegment msg formatOpts ++
      timestampSegment nowStr formatOpts)
  else
    Except.error ("parse mode ".toList ++ formatOpts.parseMode ++
      " is not supported".toList)

/-- `config.TelegramBotConfig` (`part_013`). -/
structure TelegramBotConfig where
  token : List Char
  chatID : List Char
deriving DecidableEq

/-- `config.RoutingRule` (`part_013`): the gotify app ids claimed by a bot. -/
structure RoutingRule where
  appIDs : List Nat
  botName : List Char
deriving DecidableEq

/-- `config.TelegramConfig` (`part_013`); the `Bots` map is an association
list keyed by bot name. -/
structure TelegramConfig where
  defaultBotToken : List Char
  defaultChatID : List Char
  bots : List (List Char × TelegramBotConfig)
deriving DecidableEq

/-- `config.Config` (`part_013`): routing rules are an ordered slice. -/
structure Config where
  telegramConfig : TelegramConfig
  rules : List RoutingRule
deriving DecidableEq

/-- `getTelegramBotConfigForAppID` of `plugin.go` lines 249-279: scan all
rules and all their app ids, remembering the bot name of a matching rule
(note: no `break` — a later match overwrites an earlier one); then look the
final name up in the bots map, falling back to the default bot token/chat id
when the name is absent.  The `p.config != nil` guard is modelled by taking
the configuration as a value. -/
def getTelegramBotConfigForAppID (cfg : Config) (appID : Nat) :
    TelegramBotConfig :=
  let botName := cfg.rules.foldl
    (fun acc rule =>
      rule.appIDs.foldl
        (fun acc2 appid => if appid = appID then rule.botName else acc2) acc)
    []
  match cfg.telegramConfig.bots.lookup botName with
  | some botConfig => botConfig
  | none =>
    { token := cfg.telegramConfig.defaultBotToken,
      chatID := cfg.telegramConfig.defaultChatID }

/-- `api.Application` (`internal/api/api.go` lines 32-41). -/
structure Application where
  id : Nat
  token : List Char
  name : List Char
  description : List Char
  internal : Bool
  image : List Char
  defaultPriority : Nat
  lastUsed : List Char
deriving DecidableEq

/-- One `go-cache` entry: stored object plus absolute expiration time in
nanoseconds (0 = no expiration), exactly `cache.Item`. -/
structure CacheItem where
  value : Application
  expiration : Int
deriving DecidableEq

/-- The `go-cache` item map.  Keys are the gotify app ids: the Go key is
`fmt.Sprintf("%d", msg.AppID)` (`api.go` line 238), an injective rendering
of the id, so the numeric id itself is kept.  `cacheSetDefault` conses a
fresh binding which shadows any older one under `List.lookup`. -/
abbrev CacheState := List (Nat × CacheItem)

/-- `cache.Get` of go-cache: found unless the entry is absent or has a
positive expiration in the past (`now > item.Expiration`). -/
def cacheGet (st : CacheState) (k : Nat) (now : Int) : Option Application :=
  match st.lookup k with
  | none => none
  | some item =>
    if 0 < item.expiration ∧ item.expiration < now then none
    else some item.value

/-- `cache.SetDefault` of go-cache: store with the cache's default TTL; a
positive TTL gives absolute expiration `now + ttl`. -/
def cacheSetDefault (st : CacheState) (k : Nat) (v : Application)
    (now ttl : Int) : CacheState :=
  (k, ⟨v, if 0 < ttl then now + ttl else 0⟩) :: st

/-- Nanoseconds per minute (`time.Minute`). -/
def nanosPerMinute : Int := 60 * 1000000000

/-- Default TTL of the client's metadata cache:
`cache.New(60*time.Minute, 120*time.Minute)` in `NewClient`
(`internal/api/api.go` line 69). -/
def clientCacheDefaultTTL : Int := 60 * nanosPerMinute

/-- Cleanup (sweep) interval of the client's metadata cache, second argument
of the same `cache.New` call. -/
def clientCacheCleanupInterval : Int := 120 * nanosPerMinute

/-- The error values produced along the metadata-resolution path
(`internal/api/api.go`), one constructor per construction site. -/
inductive ApiError where
  | network (msg : List Char)
  | appNotFound (id : Nat)
  | failedToGetApplication (inner : ApiError)
  | contextCanceled
deriving DecidableEq

/-- `getApplicationByID` of `internal/api/api.go` lines 314-327: fetch the
full application list (the network outcome enters as `fetched`, covering
`getApplications`), then return the first application with the wanted id,
or the explicit error `"application with id %d not found"`. -/
def getApplicationByID (fetched : Except ApiError (List Application))
    (id : Nat) : Except ApiError Application :=
  match fetched with
  | .error e => .error e
  | .ok applications =>
    match applications.find? (fun application => application.id = id) with
    | some application => .ok application
    | none => .error (.appNotFound id)

/-- `processMessage` of `internal/api/api.go` lines 237-261.  Returns
(number of network fetches performed, cache after the call, outcome), where
the successful outcome carries the messages sent on the `messages` channel.
On a cache hit the entry is used as-is; on a miss `getApplicationByID` is
called (one fetch of the full list) and a successful result is stored with
the default TTL; any resolution error is returned wrapped in
`"failed to get application: %w"` and nothing is sent.  The final
`select` forwards the enriched message unless the context is cancelled. -/
def processMessage (cache : CacheState) (now : Int)
    (fetched : Except ApiError (List Application)) (ctxCancelled : Bool)
    (msg : Message) : Nat × CacheState × Except ApiError (List Message) :=
  match cacheGet cache msg.appID now with
  | some app =>
    let enriched := { msg with appName := app.name,
                               appDescription := app.description }
    (0, cache,
      if ctxCancelled then .error .contextCanceled else .ok [enriched])
  | none =>
    match getApplicationByID fetched msg.appID with
    | .error err => (1, cache, .error (.failedToGetApplication err))
    | .ok app =>
      let cache' := cacheSetDefault cache msg.appID app now
        clientCacheDefaultTTL
      let enriched := { msg with appName := app.name,
                                 appDescription := app.description }
      (1, cache',
        if ctxCancelled then .error .contextCanceled else .ok [enriched])

/-- The mutable client state read and written by `Close` / `connect`
(`internal/api/api.go`): whether the root context has been cancelled,
whether `c.conn` is non-nil, and the `isConnected` flag. -/
structure ApiClientState where
  ctxCancelled : Bool
  hasConn : Bool
  isConnected : Bool
deriving DecidableEq

/-- Observable side effects of one `Close` call: whether a close frame write
and a socket close were attempted. -/
structure CloseEffects where
  closeFrameSent : Bool
  socketClosed : Bool
deriving DecidableEq

/-- The error `Close` can return (`fmt.Errorf("error closing connection:
%w", err)`, `api.go` line 196). -/
inductive CloseError where
  | errorClosingConnection (e : List Char)
deriving DecidableEq

/-- `Close` of `internal/api/api.go` lines 177-203: cancel the context
(`c.cancel` is always non-nil, set in `NewClient`); if a connection exists
and is marked connected, send the close frame (a write error is only
logged — `writeErr` is that logged outcome) and close the socket; a socket
close error is returned and leaves `isConnected` set; otherwise mark
disconnected.  Outside that branch nothing else changes and `nil` is
returned. -/
def closeClient (s : ApiClientState) (writeErr closeErr : Option (List Char)) :
    ApiClientState × CloseEffects × Option CloseError :=
  let s1 := { s with ctxCancelled := true }
  if s1.hasConn ∧ s1.isConnected then
    match closeErr with
    | some e =>
      let _ := writeErr
      (s1, ⟨true, true⟩, some (.errorClosingConnection e))
    | none => ({ s1 with isConnected := false }, ⟨true, true⟩, none)
  else (s1, ⟨false, false⟩, none)

/-- `telegram.Payload` (`internal/telegram/client.go` lines 226-230), the
JSON wire body `{chat_id, text, parse_mode}` kept structured (its JSON
marshalling is injective on these string fields and never fails). -/
structure Payload where
  chatID : List Char
  text : List Char
  parseMode : List Char
deriving DecidableEq

/-- One HTTP POST performed by the delivery client: endpoint, body and the
`Content-Type` header set on it. -/
structure HttpPost where
  endpoint : List Char
  payload : Payload
  contentType : List Char
deriving DecidableEq

/-- Outcome of `c.httpClient.Do` plus the body read, supplied as an oracle:
transport failure, a response whose body read fails, or a response with
status and body. -/
inductive HttpOutcome where
  | transportError (e : List Char)
  | bodyReadError (status : Nat) (e : List Char)
  | response (status : Nat) (body : List Char)
deriving DecidableEq

/-- Errors of `makeRequest` (`internal/telegram/client.go` lines 302-330),
one constructor per `fmt.Errorf` site; `apiError` is
`"telegram API error (status %d): %s"` and carries the status code and the
response body. -/
inductive TgRequestError where
  | executeFailed (e : List Char)
  | readBodyFailed (e : List Char)
  | apiError (status : Nat) (body : List Char)
deriving DecidableEq

/-- Errors pushed by `Send` onto the error channel
(`internal/telegram/client.go` lines 252-299), one constructor per
`fmt.Errorf` site.  `marshalFailed` mirrors the `json.Marshal` branch,
which cannot fire for this payload type. -/
inductive SendError where
  | emptyBotToken
  | emptyChatID
  | formatFailed (e : List Char)
  | marshalFailed (e : List Char)
  | requestFailed (e : TgRequestError)
deriving DecidableEq

/-- `buildBotEndpoint` (`internal/telegram/client.go` lines 247-249). -/
def buildBotEndpoint (token : List Char) : List Char :=
  "https://api.telegram.org/bot".toList ++ token ++ "/sendMessage".toList

/-- `makeRequest` of `internal/telegram/client.go` lines 302-330: perform
the POST (request construction from these well-formed components does not
fail), set `Content-Type: application/json`, read the body, and treat any
status other than 200 as `"telegram API error (status %d): %s"`.  Returns
the POSTs performed and the error, if any. -/
def makeRequest (endpoint : List Char) (body : Payload)
    (outcome : HttpOutcome) : List HttpPost × Option TgRequestError :=
  let post : HttpPost := ⟨endpoint, body, "application/json".toList⟩
  match outcome with
  | .transportError e => ([post], some (.executeFailed e))
  | .bodyReadError _ e => ([post], some (.readBodyFailed e))
  | .response status rbody =>
    if status ≠ 200 then ([post], some (.apiError status rbody))
    else ([post], none)

/-- Modelled from the spec: the string-input `FormatMessage` called by
`Send` (`internal/telegram/client.go` line 268) is not among the sources —
only its tests (`part_004`) and this caller are.  Per the spec's Render
contract (§4.5) it fails exactly when the dialect is unrecognized and
otherwise renders the text with the MarkdownV2 body formatter of the
sources. -/
def FormatMessageStr (input : List Char)
    (formatOpts : MessageFormatOptions) : Except (List Char) (List Char) :=
  if formatOpts.parseMode = "MarkdownV2".toList then
    .ok (formatMessageAsMarkdownV2 input)
  else
    .error ("parse mode ".toList ++ formatOpts.parseMode ++
      " is not supported".toList)

/-- `Send` of `internal/telegram/client.go` lines 252-299: validate the bot
token and chat id (failing fast with a descriptive error pushed to the
error channel and no request made), format the message, build the payload
and endpoint, and perform the request, pushing any failure to the error
channel.  Returns (HTTP POSTs performed, errors pushed on `errChan`). -/
def Send (message : Message) (token chatID : List Char)
    (formatOpts : MessageFormatOptions) (outcome : HttpOutcome) :
    List HttpPost × List SendError :=
  if token = [] then ([], [.emptyBotToken])
  else if chatID = [] then ([], [.emptyChatID])
  else
    match FormatMessageStr message.message formatOpts with
    | .error e => ([], [.formatFailed e])
    | .ok formattedMessage =>
      let payload : Payload := ⟨chatID, formattedMessage, formatOpts.parseMode⟩
      let endpoint := buildBotEndpoint token
      match makeRequest endpoint payload outcome with
      | (posts, some err) => (posts, [.requestFailed err])
      | (posts, none) => (posts, [])

/-- `utils.MaskToken` (`part_009` lines 4-14): empty stays empty, length at
most 8 becomes `"***"`, longer tokens keep the first four and last four
characters around `"..."`. -/
def MaskToken (token : List Char) : List Char :=
  if token = [] then []
  else if token.length ≤ 8 then "***".toList
  else token.take 4 ++ "...".toList ++ token.drop (token.length - 4)

/-- `config.Websocket` (`internal/config/config.go` lines 51-54). -/
structure Websocket where
  handshakeTimeout : Int
deriving DecidableEq

/-- `config.LogOptions` (`internal/config/config.go` lines 29-32). -/
structure LogOptions where
  logLevel : List Char
deriving DecidableEq

/-- `config.GotifyServer` (`internal/config/config.go` lines 57-66); the
derived `Url` field (`yaml:"-"`, recomputed from `RawUrl`) is omitted. -/
structure GotifyServer where
  rawUrl : List Char
  clientToken : List Char
  websocket : Websocket
deriving DecidableEq

/-- `config.TelegramBot` (`internal/config/config.go` lines 95-104). -/
structure TelegramBot where
  token : List Char
  chatIDs : List (List Char)
  appIDs : List Nat
  messageFormatOptions : Option MessageFormatOptions
deriving DecidableEq

/-- `config.Telegram` (`internal/config/config.go` lines 83-92); the `Bots`
map is an association list keyed by bot name. -/
structure Telegram where
  defaultBotToken : List Char
  defaultChatIDs : List (List Char)
  bots : List (List Char × TelegramBot)
  messageFormatOptions : MessageFormatOptions
deriving DecidableEq

/-- `config.Settings` (`internal/config/config.go` lines 17-26). -/
structure Settings where
  ignoreEnvVars : Bool
  logOptions : LogOptions
  gotifyServer : GotifyServer
  telegram : Telegram
deriving DecidableEq

/-- `config.Plugin` (`internal/config/config.go` lines 107-109). -/
structure Plugin where
  settings : Settings
deriving DecidableEq

/-- The masked configuration copy built by `SafeString`
(`internal/config/config.go` lines 145-169) before JSON marshalling: the
gotify client token, the default Telegram bot token, and every per-bot token
are passed through `MaskToken`; nothing else changes.  The final
`json.MarshalIndent` renders exactly this copy, so the credential strings
the dump contains are those of this copy. -/
def SafeStringMasked (p : Plugin) : Plugin :=
  { settings :=
    { p.settings with
      gotifyServer :=
        { p.settings.gotifyServer with
          clientToken := MaskToken p.settings.gotifyServer.clientToken },
      telegram :=
        { p.settings.telegram with
          defaultBotToken := MaskToken p.settings.telegram.defaultBotToken,
          bots := p.settings.telegram.bots.map
            (fun pr => (pr.1, { pr.2 with token := MaskToken pr.2.token })) } } }

/-- Proof device generalizing `specEscape`: the escape transform restricted
to an arbitrary reserved set `cs` (the state of the escape fold after a
prefix of the reserved-character list). -/
def escOn (cs : List Char) (l : List Char) : List Char :=
  l.flatMap (fun x => if x ∈ cs then [bs, x] else [x])

/-- Key order between extras entries (the `sort.Strings` order lifted to
entries), used to state the deterministic ordering of the extras block. -/
def keyLe (a b : List Char × ExtraValue) : Prop :=
  lexLe a.1 b.1 = true

theorem escOn_cons (cs : List Char) (x : Char) (xs : List Char) :
    escOn cs (x :: xs) =
      (if x ∈ cs then [bs, x] else [x]) ++ escOn cs xs := by
  simp [escOn]

theorem escOn_nil (l : List Char) : escOn [] l = l := by
  induction l with
  | nil => rfl
  | cons x xs ih => rw [escOn_cons]; simp [ih]

theorem replaceAll_cons (x : Char) (xs : List Char) (c : Char) :
    replaceAll (x :: xs) c =
      (if x = c then [bs, c] else [x]) ++ replaceAll xs c := by
  simp [replaceAll]

theorem replaceAll_append (a b : List Char) (c : Char) :
    replaceAll (a ++ b) c = replaceAll a c ++ replaceAll b c := by
  simp [replaceAll]

theorem replaceAll_escOn {c : Char} {cs : List Char} (l : List Char)
    (h1 : c ∉ cs) (h2 : c ≠ bs) :
    replaceAll (escOn cs l) c = escOn (cs ++ [c]) l := by
  induction l with
  | nil => rfl
  | cons x xs ih =>
    rw [escOn_cons, replaceAll_append, ih, escOn_cons]
    by_cases hx : x ∈ cs
    · have hxc : x ≠ c := fun h => h1 (h ▸ hx)
      have : x ∈ cs ++ [c] := List.mem_append_left _ hx
      simp [hx, this, replaceAll, hxc, Ne.symm h2]
    · by_cases hxc : x = c
      · have hmem : x ∈ cs ++ [c] := by simp [hxc]
        simp [hx, hmem, replaceAll, hxc, h1]
      · have hmem : x ∉ cs ++ [c] := by simp [hx, hxc]
        simp [hx, hmem, replaceAll, hxc]

theorem splitOnBSn_ne_nil (l : List Char) : splitOnBSn l ≠ [] := by
  induction l using splitOnBSn.induct <;> simp [splitOnBSn] <;> (try split) <;>
    simp_all

theorem joinBSn_cons_cons (a b : List Char) (t : List (List Char)) :
    joinBSn (a :: b :: t) = a ++ bs :: 'n' :: joinBSn (b :: t) := by
  rfl

theorem splitOnBSn_bsn (rest : List Char) :
    splitOnBSn ('\\' :: 'n' :: rest) = [] :: splitOnBSn rest := by
  simp [splitOnBSn]

theorem joinBSn_map_replaceAll (c : Char) (h2 : c ≠ bs) (h3 : c ≠ 'n')
    (l : List Char) :
    joinBSn ((splitOnBSn l).map (fun part => replaceAll part c)) =
      replaceAll l c := by
  have hbc : ('\\' : Char) ≠ c := Ne.symm h2
  have hnc : ('n' : Char) ≠ c := Ne.symm h3
  induction l using splitOnBSn.induct with
  | case1 rest ih =>
    obtain ⟨p, ps, hps⟩ : ∃ p ps, splitOnBSn rest = p :: ps := by
      cases hsp : splitOnBSn rest with
      | nil => exact absurd hsp (splitOnBSn_ne_nil rest)
      | cons p ps => exact ⟨p, ps, rfl⟩
    rw [splitOnBSn_bsn]
    rw [hps] at ih ⊢
    simp only [List.map_cons] at ih ⊢
    rw [joinBSn_cons_cons, ih]
    rw [replaceAll_cons, replaceAll_cons]
    simp [replaceAll, hbc, hnc, bs]
  | case2 x rest h heq ih =>
    exact absurd heq (splitOnBSn_ne_nil rest)
  | case3 x rest h p ps heq ih =>
    have hsplit : splitOnBSn (x :: rest) = (x :: p) :: ps := by
      simp only [splitOnBSn, heq]
    rw [hsplit]
    rw [heq] at ih
    cases ps with
    | nil =>
      simp only [List.map_cons, List.map_nil] at ih ⊢
      show replaceAll (x :: p) c = replaceAll (x :: rest) c
      rw [replaceAll_cons, replaceAll_cons]
      rw [show replaceAll p c = replaceAll rest c from ih]
    | cons q qs =>
      simp only [List.map_cons] at ih ⊢
      rw [joinBSn_cons_cons] at ih ⊢
      rw [replaceAll_cons x p c, replaceAll_cons x rest c, ← ih]
      simp [List.append_assoc]
  | case4 => rfl

theorem escapeStepP3_eq_replaceAll (l : List Char) {c : Char} (h2 : c ≠ bs)
    (h3 : c ≠ 'n') : escapeStepP3 l c = replaceAll l c := by
  unfold escapeStepP3
  split
  · exact joinBSn_map_replaceAll c h2 h3 l
  · rfl

theorem foldl_escapeStepP3_eq (cs : List Char)
    (h : ∀ c ∈ cs, c ≠ bs ∧ c ≠ 'n') :
    ∀ l, List.foldl escapeStepP3 l cs = List.foldl replaceAll l cs := by
  induction cs with
  | nil => intro l; rfl
  | cons c cs' ih =>
    intro l
    have hc := h c (by simp)
    rw [List.foldl_cons, List.foldl_cons,
      escapeStepP3_eq_replaceAll l hc.1 hc.2]
    exact ih (fun d hd => h d (by simp [hd])) _

theorem foldl_replaceAll_escOn (cs : List Char) :
    ∀ (pre : List Char) (l : List Char), cs.Nodup →
      (∀ c ∈ cs, c ∉ pre ∧ c ≠ bs) →
      List.foldl replaceAll (escOn pre l) cs = escOn (pre ++ cs) l := by
  induction cs with
  | nil => intro pre l _ _; simp
  | cons c cs' ih =>
    intro pre l hnd hcond
    rw [List.foldl_cons]
    have hc := hcond c (by simp)
    rw [replaceAll_escOn l hc.1 hc.2]
    have hstep : List.foldl replaceAll (escOn (pre ++ [c]) l) cs' =
        escOn ((pre ++ [c]) ++ cs') l := by
      apply ih
      · exact (List.nodup_cons.mp hnd).2
      · intro d hd
        refine ⟨?_, (hcond d (by simp [hd])).2⟩
        simp only [List.mem_append, List.mem_singleton]
        rintro (hmem | hdc)
        · exact (hcond d (by simp [hd])).1 hmem
        · exact (List.nodup_cons.mp hnd).1 (hdc ▸ hd)
    rw [hstep]
    congr 1
    simp [List.append_assoc]

theorem escapeMarkdownV2_eq_specEscape (l : List Char) :
    escapeMarkdownV2 l = specEscape l := by
  have h := foldl_replaceAll_escOn charactersToEscape [] l (by decide)
    (by decide)
  rw [escOn_nil] at h
  unfold escapeMarkdownV2
  rw [h]
  rfl

theorem escapeMarkdownV2P3_eq_specEscape (l : List Char) :
    escapeMarkdownV2P3 l = specEscape l := by
  unfold escapeMarkdownV2P3
  rw [foldl_escapeStepP3_eq charactersToEscape (by decide) l]
  exact escapeMarkdownV2_eq_specEscape l

theorem specEscape_id (l : List Char) (h : ∀ c ∈ l, c ∉ charactersToEscape) :
    specEscape l = l := by
  induction l with
  | nil => rfl
  | cons x xs ih =>
    have hx := h x (by simp)
    have hxs := ih (fun c hc => h c (by simp [hc]))
    simp only [specEscape, List.flatMap_cons] at hxs ⊢
    simp [specEscapeChar, hx, hxs]

/-- C1: the MarkdownV2 escape function — in both source versions,
`escapeMarkdownV2` of `internal/telegram/format.go` and the
newline-preserving `escapeMarkdownV2` of `part_003` — prefixes every
occurrence of each of the 18 reserved characters with a backslash (it equals
the character-wise transform `specEscape`), and on every string containing
none of the reserved characters it is the identity. -/
theorem c1_escape_prefixes_reserved (l : List Char) :
    escapeMarkdownV2 l = specEscape l ∧
    escapeMarkdownV2P3 l = specEscape l ∧
    ((∀ c ∈ l, c ∉ charactersToEscape) →
      escapeMarkdownV2 l = l ∧ escapeMarkdownV2P3 l = l) := by
  refine ⟨escapeMarkdownV2_eq_specEscape l, escapeMarkdownV2P3_eq_specEscape l,
    fun h => ?_⟩
  have hid := specEscape_id l h
  exact ⟨(escapeMarkdownV2_eq_specEscape l).trans hid,
    (escapeMarkdownV2P3_eq_specEscape l).trans hid⟩

/-- Witness for C1 at the concrete inputs `"Hello_World!"` (escaped
character-wise) and `"Hello World"` (reserved-free, mapped to itself). -/
theorem c1_escape_prefixes_reserved_witness :
    escapeMarkdownV2P3 "Hello_World!".toList =
      "Hello\\_World\\!".toList ∧
    escapeMarkdownV2 "Hello World".toList = "Hello World".toList := by
  constructor
  · rw [(c1_escape_prefixes_reserved "Hello_World!".toList).2.1]
    decide
  · exact ((c1_escape_prefixes_reserved "Hello World".toList).2.2
      (by decide)).1
theorem innerFold_eq (appID : Nat) (name : List Char) (ids : List Nat) :
    ∀ acc, ids.foldl
        (fun acc2 appid => if appid = appID then name else acc2) acc =
      if ids.contains appID then name else acc := by
  induction ids with
  | nil => intro acc; simp
  | cons i ids' ih =>
    intro acc
    rw [List.foldl_cons, ih]
    by_cases hi : i = appID
    · simp [hi]
    · have hni : ¬ appID = i := fun h => hi h.symm
      simp [hi, List.contains_cons, hni]

theorem routerFold_eq (appID : Nat) (rules : List RoutingRule) :
    ∀ acc, rules.foldl
        (fun acc rule => rule.appIDs.foldl
          (fun acc2 appid => if appid = appID then rule.botName else acc2) acc)
        acc =
      (match rules.reverse.find? (fun rule => rule.appIDs.contains appID) with
       | some r => r.botName
       | none => acc) := by
  induction rules with
  | nil => intro acc; simp
  | cons r rules' ih =>
    intro acc
    rw [List.foldl_cons, innerFold_eq, ih]
    rw [List.reverse_cons, List.find?_append]
    cases hfind : rules'.reverse.find? (fun rule => rule.appIDs.contains appID) with
    | some r' => simp [Option.orElse]
    | none =>
      by_cases hr : appID ∈ r.appIDs <;> simp [hr]

theorem getTelegramBotConfigForAppID_eq (cfg : Config) (appID : Nat) :
    getTelegramBotConfigForAppID cfg appID =
      (match cfg.telegramConfig.bots.lookup
          (match cfg.rules.reverse.find?
              (fun rule => rule.appIDs.contains appID) with
           | some r => r.botName
           | none => []) with
       | some botConfig => botConfig
       | none => { token := cfg.telegramConfig.defaultBotToken,
                   chatID := cfg.telegramConfig.defaultChatID }) := by
  simp only [getTelegramBotConfigForAppID]
  rw [routerFold_eq]

/-- C2 counterexample: the claim says the router returns the FIRST target
(in iteration order) whose claimed id set contains the app id.  In the
configuration below both rules claim app id 5; the first rule names bot
`a`, yet the router returns bot `b`'s configuration — the rule scan has no
`break`, so the last match wins. -/
theorem c2_first_match_counterexample :
    getTelegramBotConfigForAppID
      { telegramConfig :=
          { defaultBotToken := "tokDef".toList,
            defaultChatID := "chatDef".toList,
            bots := [("a".toList, ⟨"tokenA".toList, "chatA".toList⟩),
                     ("b".toList, ⟨"tokenB".toList, "chatB".toList⟩)] },
        rules := [{ appIDs := [5], botName := "a".toList },
                  { appIDs := [5], botName := "b".toList }] } 5 =
        ⟨"tokenB".toList, "chatB".toList⟩ ∧
      (⟨"tokenB".toList, "chatB".toList⟩ : TelegramBotConfig) ≠
        ⟨"tokenA".toList, "chatA".toList⟩ := by
  constructor
  · decide
  · decide

/-- C2 (amended): for every entity id, the router returns the target of the
LAST configured rule (in iteration order) whose claimed id set contains the
id, provided that rule's bot name is configured in the bots map; if the
last matching rule's bot name is absent, or no rule matches (and no bot is
configured under the empty name), the router returns the default target
(default credential and default destination). -/
theorem c2_router_select (cfg : Config) (appID : Nat) :
    ((∀ r ∈ cfg.rules, appID ∉ r.appIDs) →
      cfg.telegramConfig.bots.lookup ([] : List Char) = none →
      getTelegramBotConfigForAppID cfg appID =
        { token := cfg.telegramConfig.defaultBotToken,
          chatID := cfg.telegramConfig.defaultChatID }) ∧
    (∀ r bc,
      cfg.rules.reverse.find?
          (fun rule => rule.appIDs.contains appID) = some r →
      cfg.telegramConfig.bots.lookup r.botName = some bc →
      getTelegramBotConfigForAppID cfg appID = bc) ∧
    (∀ r,
      cfg.rules.reverse.find?
          (fun rule => rule.appIDs.contains appID) = some r →
      cfg.telegramConfig.bots.lookup r.botName = none →
      getTelegramBotConfigForAppID cfg appID =
        { token := cfg.telegramConfig.defaultBotToken,
          chatID := cfg.telegramConfig.defaultChatID }) := by
  refine ⟨?_, ?_, ?_⟩
  · intro hno hlk
    have hfind : cfg.rules.reverse.find?
        (fun rule => rule.appIDs.contains appID) = none := by
      rw [List.find?_eq_none]
      intro r hr
      have : r ∈ cfg.rules := List.mem_reverse.mp hr
      simp [hno r this]
    rw [getTelegramBotConfigForAppID_eq, hfind, hlk]
  · intro r bc hfind hlk
    rw [getTelegramBotConfigForAppID_eq, hfind, hlk]
  · intro r hfind hlk
    rw [getTelegramBotConfigForAppID_eq, hfind, hlk]

/-- Witness for C2 (amended) at a concrete configuration: app id 5 is
claimed by both rules and resolves to the last rule's bot `b`; app id 7 is
claimed by no rule and resolves to the default target. -/
theorem c2_router_select_witness :
    getTelegramBotConfigForAppID
      { telegramConfig :=
          { defaultBotToken := "tokDef".toList,
            defaultChatID := "chatDef".toList,
            bots := [("a".toList, ⟨"tokenA".toList, "chatA".toList⟩),
                     ("b".toList, ⟨"tokenB".toList, "chatB".toList⟩)] },
        rules := [{ appIDs := [5], botName := "a".toList },
                  { appIDs := [5], botName := "b".toList }] } 5 =
        ⟨"tokenB".toList, "chatB".toList⟩ ∧
    getTelegramBotConfigForAppID
      { telegramConfig :=
          { defaultBotToken := "tokDef".toList,
            defaultChatID := "chatDef".toList,
            bots := [("a".toList, ⟨"tokenA".toList, "chatA".toList⟩),
                     ("b".toList, ⟨"tokenB".toList, "chatB".toList⟩)] },
        rules := [{ appIDs := [5], botName := "a".toList },
                  { appIDs := [5], botName := "b".toList }] } 7 =
        ⟨"tokDef".toList, "chatDef".toList⟩ := by
  constructor
  · exact (c2_router_select _ 5).2.1
      { appIDs := [5], botName := "b".toList }
      ⟨"tokenB".toList, "chatB".toList⟩ (by decide) (by decide)
  · exact (c2_router_select _ 7).1 (by decide) (by decide)

theorem processMessage_hit (cache : CacheState) (now : Int)
    (fetched : Except ApiError (List Application)) (msg : Message)
    (app : Application) (h : cacheGet cache msg.appID now = some app) :
    processMessage cache now fetched false msg =
      (0, cache, .ok [{ msg with appName := app.name,
                                 appDescription := app.description }]) := by
  simp [processMessage, h]

theorem processMessage_miss_found (cache : CacheState) (now : Int)
    (apps : List Application) (msg : Message) (app : Application)
    (h : cacheGet cache msg.appID now = none)
    (hfind : apps.find? (fun a => a.id = msg.appID) = some app) :
    processMessage cache now (.ok apps) false msg =
      (1, (msg.appID, ⟨app, now + clientCacheDefaultTTL⟩) :: cache,
        .ok [{ msg with appName := app.name,
                        appDescription := app.description }]) := by
  simp [processMessage, h, getApplicationByID, hfind, cacheSetDefault,
    (by decide : (0 : Int) < clientCacheDefaultTTL)]

theorem cacheGet_after_set (cache : CacheState) (k : Nat) (app : Application)
    (now now' : Int)
    (h2 : now' ≤ now + clientCacheDefaultTTL) :
    cacheGet ((k, ⟨app, now + clientCacheDefaultTTL⟩) :: cache) k now' =
      some app := by
  have hT : clientCacheDefaultTTL = 3600000000000 := by decide
  unfold cacheGet
  rw [List.lookup_cons_self]
  show (if 0 < now + clientCacheDefaultTTL ∧
        now + clientCacheDefaultTTL < now' then none else some app) =
      some app
  rw [if_neg (by omega)]

/-- C3: metadata resolution against the cache.  The client's cache is
created with default TTL 60 minutes and sweep (cleanup) interval 120
minutes; resolving an id that is present (unexpired) in the cache performs
no network fetch and leaves the cache unchanged; resolving on a miss
performs exactly one fetch of the full entity list, and a successful fetch
stores the filtered entry with expiration `now + TTL`; consequently
resolving the same id twice within the TTL window performs exactly one
fetch in total. -/
theorem c3_cache_one_fetch_within_ttl (cache : CacheState) (now now' : Int)
    (fetched fetched' : Except ApiError (List Application)) (msg : Message) :
    clientCacheDefaultTTL = 60 * nanosPerMinute ∧
    clientCacheCleanupInterval = 120 * nanosPerMinute ∧
    (∀ app, cacheGet cache msg.appID now = some app →
      (processMessage cache now fetched false msg).1 = 0 ∧
      (processMessage cache now fetched false msg).2.1 = cache) ∧
    (cacheGet cache msg.appID now = none →
      (processMessage cache now fetched false msg).1 = 1) ∧
    (∀ apps app, cacheGet cache msg.appID now = none →
      apps.find? (fun a => a.id = msg.appID) = some app →
      (processMessage cache now (.ok apps) false msg).2.1 =
        (msg.appID, ⟨app, now + clientCacheDefaultTTL⟩) :: cache) ∧
    (∀ apps app, cacheGet cache msg.appID now = none →
      apps.find? (fun a => a.id = msg.appID) = some app →
      now' ≤ now + clientCacheDefaultTTL →
      (processMessage cache now (.ok apps) false msg).1 +
        (processMessage (processMessage cache now (.ok apps) false msg).2.1
          now' fetched' false msg).1 = 1) := by
  refine ⟨rfl, rfl, ?_, ?_, ?_, ?_⟩
  · intro app h
    rw [processMessage_hit cache now fetched msg app h]
    exact ⟨rfl, rfl⟩
  · intro h
    unfold processMessage
    rw [h]
    cases getApplicationByID fetched msg.appID <;> rfl
  · intro apps app h hfind
    rw [processMessage_miss_found cache now apps msg app h hfind]
  · intro apps app h hfind h2
    rw [processMessage_miss_found cache now apps msg app h hfind]
    have hget := cacheGet_after_set cache msg.appID app now now' h2
    rw [processMessage_hit _ now' fetched' msg app hget]
    rfl

/-- Witness for C3 at a concrete run: app 7 is resolved twice (at times 0
and 1000 nanoseconds, well within the TTL) against a one-application
server; the two calls together perform exactly one network fetch. -/
theorem c3_cache_one_fetch_within_ttl_witness :
    (processMessage [] 0
        (.ok [⟨7, "t".toList, "App7".toList, "d".toList, false, [], 5, []⟩])
        false
        { id := 1, appID := 7, appName := [], appDescription := [],
          message := [], title := [], priority := 5, extras := [],
          date := 0 }).1 +
      (processMessage (processMessage [] 0
          (.ok [⟨7, "t".toList, "App7".toList, "d".toList, false, [], 5, []⟩])
          false
          { id := 1, appID := 7, appName := [], appDescription := [],
            message := [], title := [], priority := 5, extras := [],
            date := 0 }).2.1 1000
        (.ok [⟨7, "t".toList, "App7".toList, "d".toList, false, [], 5, []⟩])
        false
        { id := 1, appID := 7, appName := [], appDescription := [],
          message := [], title := [], priority := 5, extras := [],
          date := 0 }).1 = 1 := by
  exact (c3_cache_one_fetch_within_ttl [] 0 1000
      (.ok [⟨7, "t".toList, "App7".toList, "d".toList, false, [], 5, []⟩])
      (.ok [⟨7, "t".toList, "App7".toList, "d".toList, false, [], 5, []⟩])
      { id := 1, appID := 7, appName := [], appDescription := [],
        message := [], title := [], priority := 5, extras := [],
        date := 0 }).2.2.2.2.2
    [⟨7, "t".toList, "App7".toList, "d".toList, false, [], 5, []⟩]
    ⟨7, "t".toList, "App7".toList, "d".toList, false, [], 5, []⟩
    (by decide) (by decide) (by decide)

/-- C7: if metadata resolution fails — the fetch itself errors, or the
entity id is absent from the fetched entity list (yielding the explicit
not-found error) — enrichment returns that error wrapped in
`failed to get application` and the event is not forwarded: the outcome
carries no sent message. -/
theorem c7_resolution_error_drops_event (cache : CacheState) (now : Int)
    (fetched : Except ApiError (List Application)) (ctxCancelled : Bool)
    (msg : Message) :
    (∀ e, cacheGet cache msg.appID now = none →
      getApplicationByID fetched msg.appID = .error e →
      processMessage cache now fetched ctxCancelled msg =
        (1, cache, .error (.failedToGetApplication e))) ∧
    (∀ apps, cacheGet cache msg.appID now = none →
      fetched = .ok apps →
      (∀ a ∈ apps, a.id ≠ msg.appID) →
      processMessage cache now fetched ctxCancelled msg =
        (1, cache,
          .error (.failedToGetApplication (.appNotFound msg.appID)))) := by
  constructor
  · intro e h herr
    simp [processMessage, h, herr]
  · intro apps h hok hnone
    have hfind : apps.find? (fun a => a.id = msg.appID) = none := by
      rw [List.find?_eq_none]
      intro a ha
      simp [hnone a ha]
    simp [processMessage, h, hok, getApplicationByID, hfind]

/-- Witness for C7: a server whose only application has id 9 cannot resolve
app id 7; the enrichment call returns the wrapped not-found error and
forwards nothing. -/
theorem c7_resolution_error_drops_event_witness :
    processMessage [] 0
        (.ok [⟨9, "t".toList, "App9".toList, "d".toList, false, [], 5, []⟩])
        false
        { id := 1, appID := 7, appName := [], appDescription := [],
          message := [], title := [], priority := 5, extras := [],
          date := 0 } =
      (1, [], .error (.failedToGetApplication (.appNotFound 7))) := by
  exact (c7_resolution_error_drops_event [] 0
      (.ok [⟨9, "t".toList, "App9".toList, "d".toList, false, [], 5, []⟩])
      false
      { id := 1, appID := 7, appName := [], appDescription := [],
        message := [], title := [], priority := 5, extras := [],
        date := 0 }).2
    [⟨9, "t".toList, "App9".toList, "d".toList, false, [], 5, []⟩]
    (by decide) rfl (by decide)

/-- C9: `Close` is idempotent.  If a first `Close` returns no error, a
second `Close` from the resulting state changes nothing: the connection is
already marked disconnected (or was never connected), so no close frame is
written, no socket close is attempted, the state is returned unchanged, and
no error is produced. -/
theorem c9_close_idempotent (s : ApiClientState)
    (w1 c1 w2 c2 : Option (List Char))
    (hok : (closeClient s w1 c1).2.2 = none) :
    closeClient (closeClient s w1 c1).1 w2 c2 =
      ((closeClient s w1 c1).1, ⟨false, false⟩, none) := by
  by_cases hc : s.hasConn = true ∧ s.isConnected = true
  · cases c1 with
    | some e => simp [closeClient, hc] at hok
    | none => simp [closeClient, hc]
  · simp [closeClient, hc]

/-- Witness for C9: a connected client is closed successfully; the second
close is a no-op. -/
theorem c9_close_idempotent_witness :
    closeClient (closeClient ⟨false, true, true⟩ none none).1 none none =
      ((closeClient ⟨false, true, true⟩ none none).1, ⟨false, false⟩, none) :=
  c9_close_idempotent ⟨false, true, true⟩ none none none none (by decide)

/-- C8: `Send` fails fast with a descriptive error pushed to the error
channel — and performs no HTTP POST — when the bot token or the chat id is
empty; and whenever the HTTP response status is not 200, the pushed error
carries both the status code and the response body (one POST is
performed). -/
theorem c8_send_validation_and_status (msg : Message)
    (token chatID : List Char) (formatOpts : MessageFormatOptions)
    (outcome : HttpOutcome) :
    (token = [] →
      Send msg token chatID formatOpts outcome =
        ([], [SendError.emptyBotToken])) ∧
    (token ≠ [] → chatID = [] →
      Send msg token chatID formatOpts outcome =
        ([], [SendError.emptyChatID])) ∧
    (∀ status body text, token ≠ [] → chatID ≠ [] →
      FormatMessageStr msg.message formatOpts = .ok text →
      outcome = .response status body → status ≠ 200 →
      Send msg token chatID formatOpts outcome =
        ([⟨buildBotEndpoint token, ⟨chatID, text, formatOpts.parseMode⟩,
            "application/json".toList⟩],
          [SendError.requestFailed (.apiError status body)])) := by
  refine ⟨?_, ?_, ?_⟩
  · intro h
    simp [Send, h]
  · intro h1 h2
    simp [Send, h1, h2]
  · intro status body text h1 h2 hfmt hout hstatus
    simp [Send, h1, h2, hfmt, hout, makeRequest, hstatus]

/-- Witness for C8: an empty token pushes the descriptive error without any
POST; a 403 response with body `forbidden` yields the error carrying both. -/
theorem c8_send_validation_and_status_witness :
    Send { id := 1, appID := 7, appName := [], appDescription := [],
           message := [], title := [], priority := 5, extras := [],
           date := 0 } [] "chat".toList
        ⟨false, false, false, "MarkdownV2".toList, false, 0⟩
        (.response 200 []) = ([], [SendError.emptyBotToken]) ∧
    Send { id := 1, appID := 7, appName := [], appDescription := [],
           message := [], title := [], priority := 5, extras := [],
           date := 0 } "tok".toList "chat".toList
        ⟨false, false, false, "MarkdownV2".toList, false, 0⟩
        (.response 403 "forbidden".toList) =
      ([⟨buildBotEndpoint "tok".toList,
          ⟨"chat".toList, [], "MarkdownV2".toList⟩,
          "application/json".toList⟩],
        [SendError.requestFailed (.apiError 403 "forbidden".toList)]) := by
  constructor
  · exact (c8_send_validation_and_status _ [] "chat".toList
      ⟨false, false, false, "MarkdownV2".toList, false, 0⟩
      (.response 200 [])).1 rfl
  · exact (c8_send_validation_and_status _ "tok".toList "chat".toList
      ⟨false, false, false, "MarkdownV2".toList, false, 0⟩
      (.response 403 "forbidden".toList)).2.2 403 "forbidden".toList []
      (by decide) (by decide) rfl rfl (by decide)

/-- C10 counterexample: the claim's consequence "the SafeString dump never
contains any full credential" fails.  The 11-character token
`abcd...wxyz` is longer than 8, yet its mask — first four characters,
`"..."`, last four characters — is the token itself, so the masked
configuration (and hence the dump) contains the full credential
verbatim. -/
theorem c10_mask_counterexample :
    8 < ("abcd...wxyz".toList).length ∧
    MaskToken "abcd...wxyz".toList = "abcd...wxyz".toList ∧
    (SafeStringMasked
        ⟨⟨false, ⟨"info".toList⟩,
          ⟨"http://localhost:80".toList, "clienttok".toList, ⟨10⟩⟩,
          ⟨"abcd...wxyz".toList, [], [],
            ⟨false, false, false, "MarkdownV2".toList, false,
              0⟩⟩⟩⟩).settings.telegram.defaultBotToken =
      "abcd...wxyz".toList := by
  refine ⟨by decide, by decide, by decide⟩

/-- C10 (amended): `MaskToken` maps the empty string to itself, tokens of
length at most 8 to `"***"`, and longer tokens to first-4 ++ `"..."` ++
last-4; its output depends only on the first four and last four characters
(and the emptiness/size class), so at most those are revealed; every
credential field of the `SafeString` dump is the `MaskToken` image of the
original — hence a full credential appears in the dump only when it is a
fixed point of the mask: empty, exactly `"***"`, or longer than 8 with
middle exactly `"..."`. -/
theorem c10_mask_at_most_eight_chars (p : Plugin) (t t' : List Char) :
    MaskToken [] = [] ∧
    (t ≠ [] → t.length ≤ 8 → MaskToken t = "***".toList) ∧
    (8 < t.length →
      MaskToken t = t.take 4 ++ "...".toList ++ t.drop (t.length - 4)) ∧
    (t.take 4 = t'.take 4 →
      t.drop (t.length - 4) = t'.drop (t'.length - 4) →
      (t = [] ↔ t' = []) → (t.length ≤ 8 ↔ t'.length ≤ 8) →
      MaskToken t = MaskToken t') ∧
    (MaskToken t = t ↔ (t = [] ∨ t = "***".toList ∨
      (8 < t.length ∧
        t = t.take 4 ++ "...".toList ++ t.drop (t.length - 4)))) ∧
    (SafeStringMasked p).settings.gotifyServer.clientToken =
      MaskToken p.settings.gotifyServer.clientToken ∧
    (SafeStringMasked p).settings.telegram.defaultBotToken =
      MaskToken p.settings.telegram.defaultBotToken ∧
    (SafeStringMasked p).settings.telegram.bots =
      p.settings.telegram.bots.map
        (fun pr => (pr.1, { pr.2 with token := MaskToken pr.2.token })) := by
  refine ⟨rfl, ?_, ?_, ?_, ?_, rfl, rfl, rfl⟩
  · intro h1 h2
    simp [MaskToken, h1, h2]
  · intro h
    have hne : t ≠ [] := by
      intro h'
      rw [h'] at h
      simp at h
    unfold MaskToken
    rw [if_neg hne, if_neg (by omega)]
  · intro htake hdrop hempt hlen
    by_cases h0 : t = []
    · have h0' := hempt.mp h0
      simp [h0, h0', MaskToken]
    · have h0' : t' ≠ [] := fun h => h0 (hempt.mpr h)
      by_cases h8 : t.length ≤ 8
      · have h8' := hlen.mp h8
        simp [MaskToken, h0, h0', h8, h8']
      · have h8' : ¬ t'.length ≤ 8 := fun h => h8 (hlen.mpr h)
        unfold MaskToken
        rw [if_neg h0, if_neg h8, if_neg h0', if_neg h8', htake, hdrop]
  · constructor
    · intro heq
      by_cases h0 : t = []
      · exact Or.inl h0
      · by_cases h8 : t.length ≤ 8
        · refine Or.inr (Or.inl ?_)
          unfold MaskToken at heq
          rw [if_neg h0, if_pos h8] at heq
          exact heq.symm
        · refine Or.inr (Or.inr ⟨by omega, ?_⟩)
          unfold MaskToken at heq
          rw [if_neg h0, if_neg h8] at heq
          exact heq.symm
    · rintro (h | h | ⟨h8, hshape⟩)
      · rw [h]
        rfl
      · rw [h]
        decide
      · have h0 : t ≠ [] := by
          intro h'
          rw [h'] at h8
          simp at h8
        unfold MaskToken
        rw [if_neg h0, if_neg (by omega)]
        exact hshape.symm

/-- Witness for C10 (amended): a 6-character and a 13-character token. -/
theorem c10_mask_at_most_eight_chars_witness :
    MaskToken "secret".toList = "***".toList ∧
    MaskToken "verylongtoken".toList =
      "verylongtoken".toList.take 4 ++ "...".toList ++
        "verylongtoken".toList.drop ("verylongtoken".toList.length - 4) := by
  constructor
  · exact (c10_mask_at_most_eight_chars
      ⟨⟨false, ⟨[]⟩, ⟨[], [], ⟨0⟩⟩,
        ⟨[], [], [], ⟨false, false, false, [], false, 0⟩⟩⟩⟩
      "secret".toList []).2.1 (by decide) (by decide)
  · exact (c10_mask_at_most_eight_chars
      ⟨⟨false, ⟨[]⟩, ⟨[], [], ⟨0⟩⟩,
        ⟨[], [], [], ⟨false, false, false, [], false, 0⟩⟩⟩⟩
      "verylongtoken".toList []).2.2.1 (by decide)

/-- C5: `FormatMessage` returns an error if and only if the requested parse
mode is not the single supported dialect `"MarkdownV2"`; with
`"MarkdownV2"` it always succeeds with a rendered string. -/
theorem c5_render_fails_only_on_unknown_dialect (nowStr : List Char)
    (msg : Message) (formatOpts : MessageFormatOptions) :
    ((formatOpts.parseMode = "MarkdownV2".toList) ↔
      (FormatMessage nowStr msg formatOpts).isOk = true) ∧
    ((formatOpts.parseMode ≠ "MarkdownV2".toList) ↔
      FormatMessage nowStr msg formatOpts =
        .error ("parse mode ".toList ++ formatOpts.parseMode ++
          " is not supported".toList)) := by
  by_cases h : formatOpts.parseMode = "MarkdownV2".toList
  · unfold FormatMessage
    rw [if_pos h]
    refine ⟨⟨fun _ => rfl, fun _ => h⟩, ⟨fun hne => absurd h hne,
      fun heq => Except.noConfusion heq⟩⟩
  · unfold FormatMessage
    rw [if_neg h]
    refine ⟨⟨fun hp => absurd hp h, fun hok => ?_⟩,
      ⟨fun _ => rfl, fun _ => h⟩⟩
    simp [Except.isOk, Except.toBool] at hok

/-- C4: the rendered output contains the priority-indicator segment exactly
when `IncludePriority` is set and the message priority strictly exceeds
`PriorityThreshold`; and the indicator's label follows the top-down
inclusive lower bounds 8 → Critical, 6 → High, 4 → Medium, else Low. -/
theorem c4_priority_indicator (nowStr : List Char) (msg : Message)
    (formatOpts : MessageFormatOptions) (s : List Char)
    (h : FormatMessage nowStr msg formatOpts = .ok s) :
    ((formatOpts.includePriority ∧
        (msg.priority : Int) > formatOpts.priorityThreshold) →
      s = titleSegment msg formatOpts ++
        (formatMessageAsMarkdownV2 msg.message ++ ['\n', '\n']) ++
        (escapeMarkdownV2P3 (getPriorityIndicator (msg.priority : Int)) ++
          ['\n', '\n']) ++
        extrasSegment msg formatOpts ++ timestampSegment nowStr formatOpts) ∧
    (¬(formatOpts.includePriority ∧
        (msg.priority : Int) > formatOpts.priorityThreshold) →
      s = titleSegment msg formatOpts ++
        (formatMessageAsMarkdownV2 msg.message ++ ['\n', '\n']) ++
        extrasSegment msg formatOpts ++ timestampSegment nowStr formatOpts) ∧
    (∀ p : Int,
      (8 ≤ p → getPriorityIndicator p = "🔴 Critical Priority".toList) ∧
      (6 ≤ p → p < 8 →
        getPriorityIndicator p = "🟠 High Priority".toList) ∧
      (4 ≤ p → p < 6 →
        getPriorityIndicator p = "🟡 Medium Priority".toList) ∧
      (p < 4 → getPriorityIndicator p = "🟢 Low Priority".toList)) := by
  have hpm : formatOpts.parseMode = "MarkdownV2".toList := by
    by_contra hne
    unfold FormatMessage at h
    rw [if_neg hne] at h
    exact Except.noConfusion h
  unfold FormatMessage at h
  rw [if_pos hpm, Except.ok.injEq] at h
  subst h
  refine ⟨?_, ?_, ?_⟩
  · intro hc
    simp only [prioritySegment, if_pos (And.intro hc.2 hc.1)]
  · intro hc
    have hneg : ¬((msg.priority : Int) > formatOpts.priorityThreshold ∧
        formatOpts.includePriority = true) :=
      fun hcon => hc ⟨hcon.2, hcon.1⟩
    simp only [prioritySegment, if_neg hneg]
    simp
  · intro p
    refine ⟨?_, ?_, ?_, ?_⟩
    · intro h8
      rw [getPriorityIndicator, if_pos (by omega)]
    · intro h6 h8
      rw [getPriorityIndicator, if_neg (by omega), if_pos (by omega)]
    · intro h4 h6
      rw [getPriorityIndicator, if_neg (by omega), if_neg (by omega),
        if_pos (by omega)]
    · intro h4
      rw [getPriorityIndicator, if_neg (by omega), if_neg (by omega),
        if_neg (by omega)]

/-- Witness for C4: a priority-8 message over threshold 5; the boundary
labels 8/6/4/3 are obtained from the theorem applied to that run. -/
theorem c4_priority_indicator_witness :
    getPriorityIndicator 8 = "🔴 Critical Priority".toList ∧
    getPriorityIndicator 6 = "🟠 High Priority".toList ∧
    getPriorityIndicator 4 = "🟡 Medium Priority".toList ∧
    getPriorityIndicator 3 = "🟢 Low Priority".toList := by
  have h := c4_priority_indicator []
    { id := 1, appID := 7, appName := "App".toList, appDescription := [],
      message := [], title := "T".toList, priority := 8, extras := [],
      date := 0 }
    ⟨false, false, false, "MarkdownV2".toList, true, 5⟩
    (titleSegment
        { id := 1, appID := 7, appName := "App".toList, appDescription := [],
          message := [], title := "T".toList, priority := 8, extras := [],
          date := 0 }
        ⟨false, false, false, "MarkdownV2".toList, true, 5⟩ ++
      (formatMessageAsMarkdownV2 [] ++ ['\n', '\n']) ++
      prioritySegment
        { id := 1, appID := 7, appName := "App".toList, appDescription := [],
          message := [], title := "T".toList, priority := 8, extras := [],
          date := 0 }
        ⟨false, false, false, "MarkdownV2".toList, true, 5⟩ ++
      extrasSegment
        { id := 1, appID := 7, appName := "App".toList, appDescription := [],
          message := [], title := "T".toList, priority := 8, extras := [],
          date := 0 }
        ⟨false, false, false, "MarkdownV2".toList, true, 5⟩ ++
      timestampSegment [] ⟨false, false, false, "MarkdownV2".toList, true, 5⟩)
    rfl
  exact ⟨(h.2.2 8).1 (by omega), (h.2.2 6).2.1 (by omega) (by omega),
    (h.2.2 4).2.2.1 (by omega) (by omega), (h.2.2 3).2.2.2 (by omega)⟩

theorem lexLe_total (a : List Char) : ∀ b, lexLe a b = true ∨ lexLe b a = true := by
  induction a with
  | nil => intro b; left; rfl
  | cons x xs ih =>
    intro b
    cases b with
    | nil => right; rfl
    | cons y ys =>
      simp only [lexLe]
      by_cases hxy : x = y
      · subst hxy
        simp only [if_pos rfl]
        exact ih ys
      · rcases lt_trichotomy x y with h | h | h
        · left
          rw [if_neg hxy]
          exact decide_eq_true h
        · exact absurd h hxy
        · right
          rw [if_neg (fun hyx => hxy hyx.symm)]
          exact decide_eq_true h

theorem lexLe_trans (a : List Char) :
    ∀ b c, lexLe a b = true → lexLe b c = true → lexLe a c = true := by
  induction a with
  | nil => intro b c _ _; rfl
  | cons x xs ih =>
    intro b c hab hbc
    cases b with
    | nil => simp [lexLe] at hab
    | cons y ys =>
      cases c with
      | nil => simp [lexLe] at hbc
      | cons z zs =>
        simp only [lexLe] at hab hbc ⊢
        by_cases hxy : x = y
        · subst hxy
          rw [if_pos rfl] at hab
          by_cases hyz : x = z
          · subst hyz
            rw [if_pos rfl] at hbc ⊢
            exact ih ys zs hab hbc
          · rw [if_neg hyz] at hbc
            rw [if_neg hyz]
            exact hbc
        · rw [if_neg hxy] at hab
          by_cases hyz : y = z
          · subst hyz
            rw [if_neg hxy]
            exact hab
          · rw [if_neg hyz] at hbc
            have hxz : x < z :=
              lt_trans (of_decide_eq_true hab) (of_decide_eq_true hbc)
            rw [if_neg (fun (hh : x = z) => absurd (hh ▸ hxz) (lt_irrefl z))]
            exact decide_eq_true hxz

theorem insertPair_perm (p : List Char × ExtraValue)
    (l : List (List Char × ExtraValue)) :
    List.Perm (insertPair p l) (p :: l) := by
  induction l with
  | nil => exact List.Perm.refl _
  | cons q rest ih =>
    simp only [insertPair]
    split
    · exact List.Perm.refl _
    · exact (List.Perm.cons q ih).trans (List.Perm.swap p q rest)

theorem sortPairs_perm (l : List (List Char × ExtraValue)) :
    List.Perm (sortPairs l) l := by
  induction l with
  | nil => exact List.Perm.refl _
  | cons p rest ih =>
    exact (insertPair_perm p (sortPairs rest)).trans (List.Perm.cons p ih)

theorem pairwise_insertPair (p : List Char × ExtraValue)
    (l : List (List Char × ExtraValue)) (hl : List.Pairwise keyLe l) :
    List.Pairwise keyLe (insertPair p l) := by
  induction l with
  | nil => exact List.pairwise_singleton _ _
  | cons q rest ih =>
    rcases List.pairwise_cons.mp hl with ⟨hq, hrest⟩
    simp only [insertPair]
    split
    · next hpq =>
      refine List.pairwise_cons.mpr ⟨?_, hl⟩
      intro r hr
      rcases List.mem_cons.mp hr with hrq | hrr
      · subst hrq
        exact hpq
      · exact lexLe_trans p.1 q.1 r.1 hpq (hq r hrr)
    · next hpq =>
      refine List.pairwise_cons.mpr ⟨?_, ih hrest⟩
      intro r hr
      rcases List.mem_cons.mp ((insertPair_perm p rest).mem_iff.mp hr) with
        hrp | hrr
      · rw [hrp]
        rcases lexLe_total p.1 q.1 with htot | htot
        · exact absurd htot hpq
        · exact htot
      · exact hq r hrr

theorem sortPairs_pairwise (l : List (List Char × ExtraValue)) :
    List.Pairwise keyLe (sortPairs l) := by
  induction l with
  | nil => exact List.Pairwise.nil
  | cons p rest ih => exact pairwise_insertPair p (sortPairs rest) ih

/-- C6: the rendered output contains the extras block exactly when
`IncludeExtras` is set and the extras map is non-empty; the block's entries
are deterministically ordered by sorted key (the rendered order is a
key-sorted permutation of the map); nested map values recurse with the
indentation prefix grown by two spaces; scalar values are rendered as
inline code spans. -/
theorem c6_extras_block (nowStr : List Char) (msg : Message)
    (formatOpts : MessageFormatOptions) (s : List Char)
    (h : FormatMessage nowStr msg formatOpts = .ok s) :
    ((formatOpts.includeExtras ∧ 0 < msg.extras.length) →
      s = titleSegment msg formatOpts ++
        (formatMessageAsMarkdownV2 msg.message ++ ['\n', '\n']) ++
        prioritySegment msg formatOpts ++
        ("*Additional Info:*".toList ++ formatExtras msg.extras []) ++
        timestampSegment nowStr formatOpts) ∧
    (¬(formatOpts.includeExtras ∧ 0 < msg.extras.length) →
      s = titleSegment msg formatOpts ++
        (formatMessageAsMarkdownV2 msg.message ++ ['\n', '\n']) ++
        prioritySegment msg formatOpts ++
        timestampSegment nowStr formatOpts) ∧
    (∀ extras : List (List Char × ExtraValue),
      List.Pairwise keyLe (sortPairs extras) ∧
      List.Perm (sortPairs extras) extras) ∧
    (∀ fuel key v rest pfx,
      renderSorted (fuel + 1) ((key, ExtraValue.scalar v) :: rest) pfx =
        ('\n' :: pfx ++ "• ".toList ++ escapeMarkdownV2P3 key ++
          ": ".toList ++ Char.ofNat 96 :: escapeMarkdownV2P3 v ++
          [Char.ofNat 96]) ++ renderSorted fuel rest pfx) ∧
    (∀ fuel key m rest pfx,
      renderSorted (fuel + 1) ((key, ExtraValue.nested m) :: rest) pfx =
        ('\n' :: pfx ++ "• ".toList ++ escapeMarkdownV2P3 key ++ [':']) ++
          (renderSorted fuel (sortPairs m) (pfx ++ "  ".toList) ++
            ['\n', '\n']) ++ renderSorted fuel rest pfx) := by
  have hpm : formatOpts.parseMode = "MarkdownV2".toList := by
    by_contra hne
    unfold FormatMessage at h
    rw [if_neg hne] at h
    exact Except.noConfusion h
  unfold FormatMessage at h
  rw [if_pos hpm, Except.ok.injEq] at h
  subst h
  refine ⟨?_, ?_, ?_, ?_, ?_⟩
  · intro hc
    simp only [extrasSegment, if_pos (And.intro hc.2 hc.1)]
  · intro hc
    have hneg : ¬(0 < msg.extras.length ∧
        formatOpts.includeExtras = true) :=
      fun hcon => hc ⟨hcon.2, hcon.1⟩
    simp only [extrasSegment, if_neg hneg]
    simp
  · intro extras
    exact ⟨sortPairs_pairwise extras, sortPairs_perm extras⟩
  · intro fuel key v rest pfx
    rfl
  · intro fuel key m rest pfx
    rfl

/-- Witness for C6 at a run whose extras are `{b ↦ "2", a ↦ "1"}` with
`IncludeExtras` set: the sorted entry list is ordered and a permutation of
the map. -/
theorem c6_extras_block_witness :
    List.Pairwise keyLe
      (sortPairs [("b".toList, ExtraValue.scalar "2".toList),
        ("a".toList, ExtraValue.scalar "1".toList)]) ∧
    List.Perm
      (sortPairs [("b".toList, ExtraValue.scalar "2".toList),
        ("a".toList, ExtraValue.scalar "1".toList)])
      [("b".toList, ExtraValue.scalar "2".toList),
        ("a".toList, ExtraValue.scalar "1".toList)] := by
  have h := c6_extras_block []
    { id := 1, appID := 7, appName := "App".toList, appDescription := [],
      message := [], title := "T".toList, priority := 8,
      extras := [("b".toList, ExtraValue.scalar "2".toList),
        ("a".toList, ExtraValue.scalar "1".toList)], date := 0 }
    ⟨false, false, true, "MarkdownV2".toList, false, 0⟩
    (titleSegment
        { id := 1, appID := 7, appName := "App".toList, appDescription := [],
          message := [], title := "T".toList, priority := 8,
          extras := [("b".toList, ExtraValue.scalar "2".toList),
            ("a".toList, ExtraValue.scalar "1".toList)], date := 0 }
        ⟨false, false, true, "MarkdownV2".toList, false, 0⟩ ++
      (formatMessageAsMarkdownV2 [] ++ ['\n', '\n']) ++
      prioritySegment
        { id := 1, appID := 7, appName := "App".toList, appDescription := [],
          message := [], title := "T".toList, priority := 8,
          extras := [("b".toList, ExtraValue.scalar "2".toList),
            ("a".toList, ExtraValue.scalar "1".toList)], date := 0 }
        ⟨false, false, true, "MarkdownV2".toList, false, 0⟩ ++
      extrasSegment
        { id := 1, appID := 7, appName := "App".toList, appDescription := [],
          message := [], title := "T".toList, priority := 8,
          extras := [("b".toList, ExtraValue.scalar "2".toList),
            ("a".toList, ExtraValue.scalar "1".toList)], date := 0 }
        ⟨false, false, true, "MarkdownV2".toList, false, 0⟩ ++
      timestampSegment []
        ⟨false, false, true, "MarkdownV2".toList, false, 0⟩)
    rfl
  exact h.2.2.1 [("b".toList, ExtraValue.scalar "2".toList),
    ("a".toList, ExtraValue.scalar "1".toList)]
